import Mathlib

/-!
Shallow embedding of the lambda-shared-filesystem pipeline
(producer and consumer Lambda functions) and proofs about it.

Bytes are modelled as `Nat` values, byte strings as `List Nat`,
and Python strings as `List Char`.  The shared EFS namespace is a
partial map from paths to file contents.
-/

set_option maxRecDepth 16000

namespace LambdaSFS

abbrev Byte := Nat
abbrev Bytes := List Nat
abbrev Str := List Char

/-! ## Python string and path helpers (posixpath semantics) -/

/-- Python `s.replace(pat, new, 1)` specialised to `new = ""`:
remove the first occurrence of `pat` from `s`. -/
def replaceFirst (pat : Str) : Str → Str
  | [] => []
  | c :: rest =>
      if pat.isPrefixOf (c :: rest) then (c :: rest).drop pat.length
      else c :: replaceFirst pat rest

/-- Python `os.path.basename` on POSIX: the part after the last slash. -/
def basename (s : Str) : Str :=
  s.foldl (fun acc c => if c = '/' then [] else acc ++ [c]) []

/-- Python `posixpath.join a b`: if `b` is absolute it wins; otherwise it is
appended to `a` with a separator unless `a` is empty or ends in a slash. -/
def posixJoin (a b : Str) : Str :=
  if b.head? = some '/' then b
  else if a = [] ∨ a.getLast? = some '/' then a ++ b
  else a ++ ['/'] ++ b

/-- UTF-8 encoding of one character (Python `str.encode`). -/
def utf8Char (c : Char) : Bytes :=
  let n := c.toNat
  if n < 0x80 then [n]
  else if n < 0x800 then [0xC0 + n / 64, 0x80 + n % 64]
  else if n < 0x10000 then [0xE0 + n / 4096, 0x80 + n / 64 % 64, 0x80 + n % 64]
  else [0xF0 + n / 262144, 0x80 + n / 4096 % 64, 0x80 + n / 64 % 64, 0x80 + n % 64]

/-- UTF-8 encoding of a string. -/
def utf8 (s : Str) : Bytes := (s.map utf8Char).flatten

/-- Lowercase hexadecimal digit character. -/
def hexChar (d : Nat) : Char :=
  if d < 10 then Char.ofNat (48 + d) else Char.ofNat (87 + d)

/-! ## 32-bit word arithmetic on Nat -/

def rotr32 (k n : Nat) : Nat := (n >>> k) ||| ((n <<< (32 - k)) % 2 ^ 32)

def rotl32 (k n : Nat) : Nat := ((n <<< k) % 2 ^ 32) ||| (n >>> (32 - k))

/-- Big-endian byte serialisation of `n` into `k` bytes. -/
def beBytes (k n : Nat) : Bytes :=
  (List.range k).map (fun i => n / 2 ^ (8 * (k - 1 - i)) % 256)

/-- Group a byte list into big-endian 32-bit words (length divisible by 4). -/
def beWords : Bytes → List Nat
  | b0 :: b1 :: b2 :: b3 :: rest =>
      (b0 * 2 ^ 24 + b1 * 2 ^ 16 + b2 * 2 ^ 8 + b3) :: beWords rest
  | _ => []

/-- Group a word list into 16-word blocks (length divisible by 16). -/
def blocks16 : List Nat → List (List Nat)
  | w0 :: w1 :: w2 :: w3 :: w4 :: w5 :: w6 :: w7 ::
    w8 :: w9 :: w10 :: w11 :: w12 :: w13 :: w14 :: w15 :: rest =>
      [w0, w1, w2, w3, w4, w5, w6, w7, w8, w9, w10, w11, w12, w13, w14, w15]
        :: blocks16 rest
  | _ => []

/-- MD-style padding shared by SHA-1 and SHA-256: append `0x80`, zero pad
to 56 mod 64, then the 64-bit big-endian bit length. -/
def shaPad (msg : Bytes) : Bytes :=
  msg ++ 0x80 :: List.replicate ((119 - msg.length % 64) % 64) 0
      ++ beBytes 8 (8 * msg.length % 2 ^ 64)

def iter (f : α → α) : Nat → α → α
  | 0, a => a
  | n + 1, a => iter f n (f a)

/-! ## SHA-256 -/

-- The 64 SHA-256 round constants of FIPS 180-4, written in decimal.
def sha256K : List Nat :=
  [1116352408, 1899447441, 3049323471, 3921009573, 961987163,
   1508970993, 2453635748, 2870763221, 3624381080, 310598401,
   607225278, 1426881987, 1925078388, 2162078206, 2614888103,
   3248222580, 3835390401, 4022224774, 264347078, 604807628,
   770255983, 1249150122, 1555081692, 1996064986, 2554220882,
   2821834349, 2952996808, 3210313671, 3336571891, 3584528711,
   113926993, 338241895, 666307205, 773529912, 1294757372,
   1396182291, 1695183700, 1986661051, 2177026350, 2456956037,
   2730485921, 2820302411, 3259730800, 3345764771, 3516065817,
   3600352804, 4094571909, 275423344, 430227734, 506948616,
   659060556, 883997877, 958139571, 1322822218, 1537002063,
   1747873779, 1955562222, 2024104815, 2227730452, 2361852424,
   2428436474, 2756734187, 3204031479, 3329325298]

def ch32 (x y z : Nat) : Nat := (x &&& y) ^^^ ((x ^^^ (2 ^ 32 - 1)) &&& z)

def maj32 (x y z : Nat) : Nat := (x &&& y) ^^^ (x &&& z) ^^^ (y &&& z)

def sigB0 (x : Nat) : Nat := rotr32 2 x ^^^ rotr32 13 x ^^^ rotr32 22 x

def sigB1 (x : Nat) : Nat := rotr32 6 x ^^^ rotr32 11 x ^^^ rotr32 25 x

def sigS0 (x : Nat) : Nat := rotr32 7 x ^^^ rotr32 18 x ^^^ (x >>> 3)

def sigS1 (x : Nat) : Nat := rotr32 17 x ^^^ rotr32 19 x ^^^ (x >>> 10)

structure Hash8 where
  a : Nat
  b : Nat
  c : Nat
  d : Nat
  e : Nat
  f : Nat
  g : Nat
  h : Nat
deriving DecidableEq

-- The eight SHA-256 initial hash words of FIPS 180-4, written in decimal.
def sha256Init : Hash8 :=
  ⟨1779033703, 3144134277, 1013904242, 2773480762,
   1359893119, 2600822924, 528734635, 1541459225⟩

/-- One step of the SHA-256 message-schedule extension. -/
def schedStep (ws : List Nat) : List Nat :=
  let n := ws.length
  ws ++ [(sigS1 (ws.getD (n - 2) 0) + ws.getD (n - 7) 0
          + sigS0 (ws.getD (n - 15) 0) + ws.getD (n - 16) 0) % 2 ^ 32]

def sha256Schedule (block : List Nat) : List Nat := iter schedStep 48 block

def sha256Round (s : Hash8) (kw : Nat × Nat) : Hash8 :=
  let t1 := (s.h + sigB1 s.e + ch32 s.e s.f s.g + kw.1 + kw.2) % 2 ^ 32
  let t2 := (sigB0 s.a + maj32 s.a s.b s.c) % 2 ^ 32
  ⟨(t1 + t2) % 2 ^ 32, s.a, s.b, s.c, (s.d + t1) % 2 ^ 32, s.e, s.f, s.g⟩

def sha256Compress (H : Hash8) (block : List Nat) : Hash8 :=
  let s := (List.zip sha256K (sha256Schedule block)).foldl sha256Round H
  ⟨(H.a + s.a) % 2 ^ 32, (H.b + s.b) % 2 ^ 32, (H.c + s.c) % 2 ^ 32,
   (H.d + s.d) % 2 ^ 32, (H.e + s.e) % 2 ^ 32, (H.f + s.f) % 2 ^ 32,
   (H.g + s.g) % 2 ^ 32, (H.h + s.h) % 2 ^ 32⟩

def sha256Words (msg : Bytes) : List Nat :=
  let H := (blocks16 (beWords (shaPad msg))).foldl sha256Compress sha256Init
  [H.a, H.b, H.c, H.d, H.e, H.f, H.g, H.h]

/-- Eight lowercase hex digits of a 32-bit word. -/
def wordHex (w : Nat) : Str :=
  (List.range 8).map (fun i => hexChar (w / 16 ^ (7 - i) % 16))

/-- Python `hashlib.sha256(msg).hexdigest()` as a character list. -/
def sha256hex (msg : Bytes) : Str := ((sha256Words msg).map wordHex).flatten

example : sha256hex [] =
    "e3b0c44298fc1c149afbf4c8996fb92427ae41e4649b934ca495991b7852b855".toList := by
  decide

example : sha256hex (utf8 "abc".toList) =
    "ba7816bf8f01cfea414140de5dae2223b00361a396177a9cb410ff61f20015ad".toList := by
  decide

/-! ## SHA-1 (used by Python `uuid.uuid5`) -/

structure Hash5 where
  a : Nat
  b : Nat
  c : Nat
  d : Nat
  e : Nat
deriving DecidableEq

-- The five SHA-1 initial hash words of FIPS 180-4, written in decimal.
def sha1Init : Hash5 := ⟨1732584193, 4023233417, 2562383102, 271733878, 3285377520⟩

/-- One step of the SHA-1 message-schedule extension. -/
def sha1SchedStep (ws : List Nat) : List Nat :=
  let n := ws.length
  ws ++ [rotl32 1 (ws.getD (n - 3) 0 ^^^ ws.getD (n - 8) 0
                   ^^^ ws.getD (n - 14) 0 ^^^ ws.getD (n - 16) 0)]

def sha1Schedule (block : List Nat) : List Nat := iter sha1SchedStep 64 block

def sha1F (i b c d : Nat) : Nat :=
  if i < 20 then (b &&& c) ||| ((b ^^^ (2 ^ 32 - 1)) &&& d)
  else if i < 40 then b ^^^ c ^^^ d
  else if i < 60 then (b &&& c) ||| (b &&& d) ||| (c &&& d)
  else b ^^^ c ^^^ d

-- The four SHA-1 round constants of FIPS 180-4, written in decimal.
def sha1K (i : Nat) : Nat :=
  if i < 20 then 1518500249
  else if i < 40 then 1859775393
  else if i < 60 then 2400959708
  else 3395469782

def sha1Round (s : Hash5) (iw : Nat × Nat) : Hash5 :=
  let t := (rotl32 5 s.a + sha1F iw.1 s.b s.c s.d + s.e + sha1K iw.1 + iw.2) % 2 ^ 32
  ⟨t, s.a, rotl32 30 s.b, s.c, s.d⟩

def sha1Compress (H : Hash5) (block : List Nat) : Hash5 :=
  let s := ((List.range 80).zip (sha1Schedule block)).foldl sha1Round H
  ⟨(H.a + s.a) % 2 ^ 32, (H.b + s.b) % 2 ^ 32, (H.c + s.c) % 2 ^ 32,
   (H.d + s.d) % 2 ^ 32, (H.e + s.e) % 2 ^ 32⟩

def sha1Words (msg : Bytes) : List Nat :=
  let H := (blocks16 (beWords (shaPad msg))).foldl sha1Compress sha1Init
  [H.a, H.b, H.c, H.d, H.e]

def sha1hex (msg : Bytes) : Str := ((sha1Words msg).map wordHex).flatten

example : sha1hex (utf8 "abc".toList) =
    "a9993e364706816aba3e25717850c26c9cd0d89d".toList := by decide

/-- The first 16 bytes of the SHA-1 digest as a big-endian 128-bit integer
(`uuid.UUID(bytes=hash[:16])`). -/
def sha1First16 (msg : Bytes) : Nat :=
  match sha1Words msg with
  | [w0, w1, w2, w3, _] => ((w0 * 2 ^ 32 + w1) * 2 ^ 32 + w2) * 2 ^ 32 + w3
  | _ => 0

/-! ## Python `uuid` module -/

/-- Python `uuid.UUID(int=n, version=v)`: force the RFC 4122 variant (clear bits
62-63, set bit 63) and the version nibble (bits 76-79) of the 128-bit
value, exactly as CPython `uuid.UUID.__init__` does with its bit masks. -/
def pyUUIDint (version n : Nat) : Nat :=
  let m := n % 2 ^ 128
  let m1 := m / 2 ^ 64 * 2 ^ 64 + 2 ^ 63 + m % 2 ^ 62
  m1 / 2 ^ 80 * 2 ^ 80 + version * 2 ^ 76 + m1 % 2 ^ 76

/-- Python `uuid.uuid4()` where `r` stands for the 16 random bytes drawn by
`os.urandom(16)`. -/
def uuid4int (r : Nat) : Nat := pyUUIDint 4 r

/-- The 16 bytes of `uuid.NAMESPACE_DNS`. -/
def namespaceDNS : Bytes :=
  [0x6b, 0xa7, 0xb8, 0x10, 0x9d, 0xad, 0x11, 0xd1,
   0x80, 0xb4, 0x00, 0xc0, 0x4f, 0xd4, 0x30, 0xc8]

/-- Python `uuid.uuid5(uuid.NAMESPACE_DNS, name)` as a 128-bit integer. -/
def uuid5int (name : Str) : Nat :=
  pyUUIDint 5 (sha1First16 (namespaceDNS ++ utf8 name))

/-- The 32 lowercase hex digits of a 128-bit integer, most significant
first (Python percent-032x formatting). -/
def uuidHex (n : Nat) : Str :=
  (List.range 32).map (fun i => hexChar (n / 16 ^ (31 - i) % 16))

/-- Python `str(uuid.UUID(int=n))`: the 8-4-4-4-12 hyphenated form. -/
def uuidStr (n : Nat) : Str :=
  let h := uuidHex n
  h.take 8 ++ '-' :: (h.drop 8).take 4 ++ '-' :: (h.drop 12).take 4
    ++ '-' :: (h.drop 16).take 4 ++ '-' :: h.drop 20

example : uuidStr (uuid5int "python.org".toList) =
    "886313e1-3b8a-5372-9b90-0c9aee199e5d".toList := by decide

/-- The version nibble (bits 76-79) of a constructed UUID is the requested
version. -/
theorem pyUUIDint_version (v n : Nat) (hv : v < 16) :
    pyUUIDint v n / 2 ^ 76 % 16 = v := by
  unfold pyUUIDint
  set m := n % 2 ^ 128 with hm
  set m1 := m / 2 ^ 64 * 2 ^ 64 + 2 ^ 63 + m % 2 ^ 62 with hm1
  have hA : m1 / 2 ^ 80 * 2 ^ 80 + v * 2 ^ 76 + m1 % 2 ^ 76
      = m1 % 2 ^ 76 + (m1 / 2 ^ 80 * 16 + v) * 2 ^ 76 := by ring
  rw [hA, Nat.add_mul_div_right _ _ (by positivity),
    Nat.div_eq_of_lt (Nat.mod_lt _ (by positivity)), Nat.zero_add]
  omega

/-- The character at index 14 of the hyphenated UUID string is the hex digit
of the version nibble. -/
theorem uuidStr_get14 (n : Nat) :
    (uuidStr n).get? 14 = some (hexChar (n / 16 ^ 19 % 16)) := rfl

/-- A version-4 UUID string never coincides with a version-5 UUID string:
their version characters differ. -/
theorem uuid4_ne_uuid5 (r : Nat) (name : Str) :
    uuidStr (uuid4int r) ≠ uuidStr (uuid5int name) := by
  intro heq
  have h14 : (uuidStr (uuid4int r)).get? 14 = (uuidStr (uuid5int name)).get? 14 := by
    rw [heq]
  rw [uuidStr_get14, uuidStr_get14] at h14
  have hp : (16 : Nat) ^ 19 = 2 ^ 76 := by norm_num
  have h4 : uuid4int r / 16 ^ 19 % 16 = 4 := by
    rw [hp]; exact pyUUIDint_version 4 r (by norm_num)
  have h5 : uuid5int name / 16 ^ 19 % 16 = 5 := by
    rw [hp]; exact pyUUIDint_version 5 _ (by norm_num)
  rw [h4, h5] at h14
  exact absurd (Option.some.inj h14) (by decide)

/-! ## The shared EFS namespace

A file system is a partial map from paths to byte contents.  Each Lambda
invocation is modelled as a state-passing function on this map. -/

abbrev FS := Str → Option Bytes

def emptyFS : FS := fun _ => none

def fsSet (fs : FS) (p : Str) (v : Option Bytes) : FS :=
  fun q => if q = p then v else fs q

/-- Python truthiness of an optional string (`if not x` on `None` or `str`). -/
def falsyOpt : Option Str → Bool
  | none => true
  | some s => s.isEmpty

/-! ## Producer: `write_to_efs_atomic` (producer/lambda_function.py 283-374) -/

/-- Outcome of the attempt to write the temporary file.  `err leftover`
models an `OSError` that may leave a partially written temporary file
(`leftover = some partial`) or no file at all (`leftover = none`). -/
inductive TempWrite where
  | ok
  | err (leftover : Option Bytes)
deriving DecidableEq

/-- Fault environment for one producer invocation: whether the temporary
write, the rename, and the best-effort `os.remove` succeed. -/
structure WriteFaults where
  tempWrite : TempWrite
  renameOk : Bool
  removeOk : Bool
deriving DecidableEq

/-- Per-invocation environment of the producer: the `EFS_MOUNT_PATH`
setting, the random bytes behind `uuid.uuid4()`, and the fault outcomes. -/
structure ProdEnv where
  mountPath : Str
  entropy : Nat
  faults : WriteFaults

/-- Target directory for a key (lines 298-308): `models/` and `inputs/`
keys go to their category directory, everything else to `models`. -/
def efsTargetDir (mount key : Str) : Str :=
  if ("models/".toList).isPrefixOf key then posixJoin mount "models".toList
  else if ("inputs/".toList).isPrefixOf key then posixJoin mount "inputs".toList
  else posixJoin mount "models".toList

/-- File name for a key (lines 298-308): strip the recognised category
part with `str.replace(_, "", 1)`, or fall back to `os.path.basename`. -/
def efsFilename (key : Str) : Str :=
  if ("models/".toList).isPrefixOf key then replaceFirst "models/".toList key
  else if ("inputs/".toList).isPrefixOf key then replaceFirst "inputs/".toList key
  else basename key

/-- Line 310: `final_path = os.path.join(target_dir, filename)`. -/
def finalPath (mount key : Str) : Str :=
  posixJoin (efsTargetDir mount key) (efsFilename key)

/-- Lines 333-334: `temp_path = os.path.join(target_dir, f".tmp-(file_id)")`. -/
def tempPath (env : ProdEnv) (key : Str) : Str :=
  posixJoin (efsTargetDir env.mountPath key)
    (".tmp-".toList ++ uuidStr (uuid4int env.entropy))

/-- Result of `write_to_efs_atomic`: the returned `(file_id, efs_path)`
pair, or the exception raised on an `OSError` (line 374). -/
inductive PubResult where
  | ok (fileId : Str) (efsPath : Str)
  | exn
deriving DecidableEq

/-- Error-path cleanup (lines 367-372): if the temporary file exists, try
to remove it; a failing remove is swallowed. -/
def cleanupTemp (env : ProdEnv) (fs : FS) (temp_path : Str) : FS :=
  if (fs temp_path).isSome then
    (if env.faults.removeOk then fsSet fs temp_path none else fs)
  else fs

/-- Model of `write_to_efs_atomic(file_data, s3_key, request_id)` (lines 283-374).
If the final path exists, return the path-hash identifier without writing;
otherwise write a fresh temporary file and atomically rename it over the
final path, cleaning the temporary file up on failure. -/
def write_to_efs_atomic (env : ProdEnv) (fs : FS) (file_data : Bytes) (s3_key : Str) :
    PubResult × FS :=
  let final_path := finalPath env.mountPath s3_key
  match fs final_path with
  | some _ =>
      (.ok (uuidStr (uuid5int final_path)) final_path, fs)
  | none =>
      let file_id := uuidStr (uuid4int env.entropy)
      let temp_path := tempPath env s3_key
      match env.faults.tempWrite with
      | .ok =>
          let fs1 := fsSet fs temp_path (some file_data)
          if env.faults.renameOk then
            (.ok file_id final_path,
             fsSet (fsSet fs1 temp_path none) final_path (some file_data))
          else
            (.exn, cleanupTemp env fs1 temp_path)
      | .err leftover =>
          let fs1 := fsSet fs temp_path leftover
          (.exn, cleanupTemp env fs1 temp_path)

/-! ## Producer: event handlers (lines 186-258 and 377-497)

Responses are modelled structurally: a success carries the body fields of
`create_success_response`, an error carries the status code and the
`error` code of `create_error_response` (or of the literal dictionaries
returned by the handler).  A write exception propagates to the
`lambda_handler` catch-all, which answers `500 INTERNAL_ERROR`. -/

inductive ProdResp where
  | success (fileId efsPath s3Key : Str) (sizeBytes : Nat)
  | error (statusCode : Nat) (errorCode : Str)
deriving DecidableEq

def ProdResp.status : ProdResp → Nat
  | .success _ _ _ _ => 200
  | .error c _ => c

/-- Lines 208 and 449: `max_size = 1 * 1024 * 1024 * 1024`. -/
def maxFileSize : Nat := 1 * 1024 * 1024 * 1024

/-- The `data` branch of `handle_api_event` (lines 434-463), starting from
the encoded payload bytes (`data.encode()` or `json.dumps(data).encode()`):
size check, then atomic write. -/
def handle_api_event_data (env : ProdEnv) (fs : FS) (file_data : Bytes)
    (filename : Str) : ProdResp × FS :=
  if file_data.length > maxFileSize then
    (.error 413 "FILE_TOO_LARGE".toList, fs)
  else
    match write_to_efs_atomic env fs file_data filename with
    | (.ok fid p, fs1) => (.success fid p filename file_data.length, fs1)
    | (.exn, fs1) => (.error 500 "INTERNAL_ERROR".toList, fs1)

/-- The `key` branch of `handle_api_event` (lines 411-431): fetch from the
origin bucket (`s3Obj` is the object found there, if any) and write.  Note
that this branch performs no size check. -/
def handle_api_event_key (env : ProdEnv) (fs : FS) (s3_key : Str)
    (bucket : Option Str) (s3Obj : Option Bytes) : ProdResp × FS :=
  if falsyOpt bucket then (.error 500 "CONFIGURATION_ERROR".toList, fs)
  else
    match s3Obj with
    | none => (.error 404 "S3_NOT_FOUND".toList, fs)
    | some file_data =>
        match write_to_efs_atomic env fs file_data s3_key with
        | (.ok fid p, fs1) => (.success fid p s3_key file_data.length, fs1)
        | (.exn, fs1) => (.error 500 "INTERNAL_ERROR".toList, fs1)

/-- Model of `handle_s3_event` (lines 186-258): size from the notification record
is checked before any download, then the object is fetched and written. -/
def handle_s3_event (env : ProdEnv) (fs : FS) (key : Str) (size : Nat)
    (s3Obj : Option Bytes) : ProdResp × FS :=
  if size > maxFileSize then (.error 413 "FILE_TOO_LARGE".toList, fs)
  else
    match s3Obj with
    | none => (.error 404 "S3_NOT_FOUND".toList, fs)
    | some file_data =>
        match write_to_efs_atomic env fs file_data key with
        | (.ok fid p, fs1) => (.success fid p key file_data.length, fs1)
        | (.exn, fs1) => (.error 500 "INTERNAL_ERROR".toList, fs1)

/-- A fault-free invocation environment with entropy 0. -/
def faultsOk : WriteFaults := ⟨.ok, true, true⟩

def okEnv : ProdEnv := ⟨"/mnt/efs".toList, 0, faultsOk⟩

/-! ## Consumer: `process_inference` (consumer/lambda_function.py 262-308) -/

/-- The `result` dictionary built by `process_inference`. -/
structure InferenceResult where
  fileId : Str
  fileSize : Nat
  checksum : Str
  uniqueBytes : Nat
  mostCommonByte : Nat
  processingDurationMs : Nat
  status : Str
deriving DecidableEq

/-- One step of the byte-frequency dictionary (lines 287-288):
`byte_counts[byte] = byte_counts.get(byte, 0) + 1`, preserving Python
dict insertion order as an association list. -/
def bumpCount (counts : List (Nat × Nat)) (b : Nat) : List (Nat × Nat) :=
  match counts with
  | [] => [(b, 1)]
  | (k, v) :: rest =>
      if k = b then (k, v + 1) :: rest else (k, v) :: bumpCount rest b

/-- Python `max(x :: l, key=lambda x: x[1])`: the first element with
maximal second component (ties keep the earlier element). -/
def pyMaxByCount (x : Nat × Nat) (l : List (Nat × Nat)) : Nat × Nat :=
  l.foldl (fun best y => if y.2 > best.2 then y else best) x

/-- Model of `process_inference(model_data, file_id)` (lines 262-308), with the
observed processing duration supplied by the environment. -/
def process_inference (proc_duration : Nat) (model_data : Bytes)
    (file_id : Str) : InferenceResult :=
  let file_size := model_data.length
  let checksum := sha256hex model_data
  let byte_counts := (model_data.take 1000).foldl bumpCount []
  let unique_bytes := byte_counts.length
  let most_common_byte :=
    match byte_counts with
    | [] => 0
    | x :: rest => (pyMaxByCount x rest).1
  { fileId := file_id, fileSize := file_size, checksum := checksum,
    uniqueBytes := unique_bytes, mostCommonByte := most_common_byte,
    processingDurationMs := proc_duration, status := "success".toList }

/-! ## Consumer: result serialisation (`json.dump(result, f, indent=2)`) -/

def lbrace : Char := Char.ofNat 123

def rbrace : Char := Char.ofNat 125

def hex4 (n : Nat) : Str :=
  [hexChar (n / 4096 % 16), hexChar (n / 256 % 16),
   hexChar (n / 16 % 16), hexChar (n % 16)]

/-- Python `json.dumps` escaping of one character with the default
`ensure_ascii=True`: escape quote, backslash, controls, and everything
outside the printable ASCII range. -/
def jsonEscapeChar (c : Char) : Str :=
  let n := c.toNat
  if c = '"' then ['\\', '"']
  else if c = '\\' then ['\\', '\\']
  else if c = '\n' then ['\\', 'n']
  else if c = '\t' then ['\\', 't']
  else if c = '\r' then ['\\', 'r']
  else if n = 8 then ['\\', 'b']
  else if n = 12 then ['\\', 'f']
  else if n < 0x20 ∨ 0x7e < n then
    (if n < 0x10000 then '\\' :: 'u' :: hex4 n
     else '\\' :: 'u' :: hex4 (0xd800 + (n - 0x10000) / 1024)
          ++ '\\' :: 'u' :: hex4 (0xdc00 + (n - 0x10000) % 1024))
  else [c]

def jsonString (s : Str) : Str := '"' :: (s.map jsonEscapeChar).flatten ++ ['"']

def natStr (n : Nat) : Str := (Nat.repr n).toList

/-- Python `json.dumps(result, indent=2)` for the fixed key order of the result
dictionary (line 329 writes this text to the output file). -/
def resultJson (r : InferenceResult) : Str :=
  let sep : Str := [',', '\n', ' ', ' ']
  [lbrace, '\n', ' ', ' ']
  ++ "\"fileId\": ".toList ++ jsonString r.fileId
  ++ sep ++ "\"fileSize\": ".toList ++ natStr r.fileSize
  ++ sep ++ "\"checksum\": ".toList ++ jsonString r.checksum
  ++ sep ++ "\"uniqueBytes\": ".toList ++ natStr r.uniqueBytes
  ++ sep ++ "\"mostCommonByte\": ".toList ++ natStr r.mostCommonByte
  ++ sep ++ "\"processingDurationMs\": ".toList ++ natStr r.processingDurationMs
  ++ sep ++ "\"status\": ".toList ++ jsonString r.status
  ++ ['\n', rbrace]

/-! ## Consumer: `lambda_handler` (lines 93-203) -/

/-- Per-invocation environment of the consumer: configuration plus the
fault outcomes of the EFS read, the result write, the S3 archive call,
and the observed durations. -/
structure ConsEnv where
  mountPath : Str
  s3Bucket : Option Str
  enableArchive : Bool
  readOk : Bool
  writeResultOk : Bool
  resultLeftover : Option Bytes
  archiveOk : Bool
  procDuration : Nat
  durationMs : Nat

/-- The parsed JSON request body: `body.get("fileId")`, `body.get("model")`. -/
structure ConsBody where
  fileId? : Option Str
  model? : Option Str

/-- Consumer response: a success carries the body fields of
`create_success_response`, an error the status code, `error` code and the
extra `fileId` and `path` fields passed to `create_error_response`. -/
inductive ConsResp where
  | success (fileId efsPath : Str) (durationMs : Nat)
      (result : InferenceResult) (s3Key : Option Str)
  | error (statusCode : Nat) (errorCode : Str)
      (fileId : Option Str) (path : Option Str)
deriving DecidableEq

def ConsResp.status : ConsResp → Nat
  | .success _ _ _ _ _ => 200
  | .error c _ _ _ => c

/-- Line 154: `model_path = os.path.join(efs_mount_path, "models", model)`. -/
def modelPath (mount model : Str) : Str :=
  posixJoin (posixJoin mount "models".toList) model

/-- Line 165: `output_path = os.path.join(efs_mount_path, "outputs", f"(file_id).result")`. -/
def outputPath (mount file_id : Str) : Str :=
  posixJoin (posixJoin mount "outputs".toList) (file_id ++ ".result".toList)

/-- Model of `archive_to_s3` (lines 339-382): the archive key on success, `None`
when the upload fails (failure is swallowed). -/
def archive_to_s3 (env : ConsEnv) (file_id : Str) : Option Str :=
  if env.archiveOk then some ("outputs/".toList ++ file_id ++ ".result".toList)
  else none

/-- Model of `create_success_response` (lines 17-48): the `s3Key` field is included
only when the key is truthy. -/
def mkSuccess (file_id output_path : Str) (dur : Nat) (result : InferenceResult)
    (s3_key : Option Str) : ConsResp :=
  .success file_id output_path dur result
    (match s3_key with
     | some k => if k.isEmpty then none else some k
     | none => none)

/-- The consumer `lambda_handler` (lines 93-203) on a parsed body:
validate fields, resolve the model path from the `model` label, load,
process, write the result, optionally archive, and answer.  A
`FileNotFoundError` from `load_model_from_efs` becomes the prebuilt 404
response; any other exception becomes `500 INTERNAL_ERROR`. -/
def consumer_handler (env : ConsEnv) (fs : FS) (body : ConsBody) :
    ConsResp × FS :=
  if falsyOpt body.fileId? then
    (.error 400 "INVALID_REQUEST".toList none none, fs)
  else if falsyOpt body.model? then
    (.error 400 "INVALID_REQUEST".toList none none, fs)
  else
    let file_id := body.fileId?.getD []
    let model := body.model?.getD []
    let model_path := modelPath env.mountPath model
    match fs model_path with
    | none => (.error 404 "NOT_FOUND".toList (some file_id) (some model_path), fs)
    | some model_data =>
        if env.readOk then
          let result := process_inference env.procDuration model_data file_id
          let output_path := outputPath env.mountPath file_id
          if env.writeResultOk then
            let fs1 := fsSet fs output_path (some (utf8 (resultJson result)))
            let s3_key :=
              if env.enableArchive && !(falsyOpt env.s3Bucket) then
                archive_to_s3 env file_id
              else none
            (mkSuccess file_id output_path env.durationMs result s3_key, fs1)
          else
            (.error 500 "INTERNAL_ERROR".toList none none,
             fsSet fs output_path env.resultLeftover)
        else
          (.error 500 "INTERNAL_ERROR".toList none none, fs)

/-- A fault-free consumer environment with archiving disabled. -/
def consOkEnv : ConsEnv :=
  ⟨"/mnt/efs".toList, none, false, true, true, none, true, 0, 0⟩

/-! ## Properties of the byte-frequency dictionary -/

theorem bumpCount_keys (acc : List (Nat × Nat)) (b : Nat) :
    (bumpCount acc b).map Prod.fst =
      if b ∈ acc.map Prod.fst then acc.map Prod.fst
      else acc.map Prod.fst ++ [b] := by
  induction acc with
  | nil => simp [bumpCount]
  | cons kv rest ih =>
      obtain ⟨k, v⟩ := kv
      by_cases hkb : k = b
      · simp [bumpCount, hkb]
      · by_cases hmem : b ∈ rest.map Prod.fst
        · simp [bumpCount, hkb, ih, hmem, Ne.symm hkb]
        · simp [bumpCount, hkb, ih, hmem, Ne.symm hkb]

theorem bumpCount_vals (f : Nat → Nat) (acc : List (Nat × Nat)) (b : Nat)
    (hvals : ∀ kv ∈ acc, kv.2 = f kv.1)
    (hnew : b ∈ acc.map Prod.fst ∨ f b = 0)
    (hnd : (acc.map Prod.fst).Nodup) :
    ∀ kv ∈ bumpCount acc b,
      kv.2 = if kv.1 = b then f kv.1 + 1 else f kv.1 := by
  induction acc with
  | nil =>
      rcases hnew with hnew | hnew
      · simp at hnew
      · intro kv hkv
        simp [bumpCount] at hkv
        simp [hkv, hnew]
  | cons hd rest ih =>
      obtain ⟨k, v⟩ := hd
      simp only [List.map_cons, List.nodup_cons] at hnd
      by_cases hkb : k = b
      · intro kv hkv
        simp only [bumpCount, hkb, if_pos rfl] at hkv
        rcases List.mem_cons.mp hkv with h | h
        · subst h
          have : v = f b := by simpa [hkb] using hvals (b, v) (by simp [hkb])
          simp [this]
        · have hk2 : kv.1 ≠ b := by
            intro hc
            exact hnd.1 (by simpa [hkb, hc] using List.mem_map_of_mem Prod.fst h)
          simp only [if_neg hk2]
          exact hvals kv (List.mem_cons_of_mem _ h)
      · intro kv hkv
        simp only [bumpCount, if_neg hkb] at hkv
        rcases List.mem_cons.mp hkv with h | h
        · subst h
          simp only [if_neg hkb]
          exact hvals (k, v) (by simp)
        · refine ih (fun kv h => hvals kv (List.mem_cons_of_mem _ h)) ?_ hnd.2 kv h
          rcases hnew with hnew | hnew
          · rw [List.map_cons] at hnew
            rcases List.mem_cons.mp hnew with h1 | h1
            · exact absurd h1.symm hkb
            · exact .inl h1
          · exact .inr hnew

theorem foldl_bumpCount_spec :
    ∀ (l : List Nat) (acc : List (Nat × Nat)) (p : List Nat),
      (∀ kv ∈ acc, kv.2 = p.count kv.1) →
      (∀ b, b ∈ acc.map Prod.fst ↔ b ∈ p) →
      (acc.map Prod.fst).Nodup →
      (∀ kv ∈ l.foldl bumpCount acc, kv.2 = (p ++ l).count kv.1)
      ∧ (∀ b, b ∈ (l.foldl bumpCount acc).map Prod.fst ↔ b ∈ p ++ l)
      ∧ ((l.foldl bumpCount acc).map Prod.fst).Nodup := by
  intro l
  induction l with
  | nil =>
      intro acc p h1 h2 h3
      simp only [List.foldl_nil, List.append_nil]
      exact ⟨h1, h2, h3⟩
  | cons b l ih =>
      intro acc p h1 h2 h3
      have hb : b ∈ acc.map Prod.fst ∨ p.count b = 0 := by
        by_cases hm : b ∈ acc.map Prod.fst
        · exact .inl hm
        · exact .inr (List.count_eq_zero.mpr (fun hbp => hm ((h2 b).mpr hbp)))
      have hkeys := bumpCount_keys acc b
      have h1' : ∀ kv ∈ bumpCount acc b, kv.2 = (p ++ [b]).count kv.1 := by
        intro kv hkv
        have hv := bumpCount_vals (p.count ·) acc b h1 hb h3 kv hkv
        rw [List.count_append]
        by_cases hc : kv.1 = b
        · simp only [hc, if_pos rfl] at hv
          simp [hv, hc]
        · simp only [if_neg hc] at hv
          simp [hv, List.count_singleton, hc]
      have h2' : ∀ x, x ∈ (bumpCount acc b).map Prod.fst ↔ x ∈ p ++ [b] := by
        intro x
        rw [hkeys]
        by_cases hm : b ∈ acc.map Prod.fst
        · rw [if_pos hm]
          constructor
          · intro hx
            exact List.mem_append_left _ ((h2 x).mp hx)
          · intro hx
            rcases List.mem_append.mp hx with hx | hx
            · exact (h2 x).mpr hx
            · simpa [List.mem_singleton.mp hx] using hm
        · rw [if_neg hm]
          constructor
          · intro hx
            rcases List.mem_append.mp hx with hx | hx
            · exact List.mem_append_left _ ((h2 x).mp hx)
            · exact List.mem_append_right _ hx
          · intro hx
            rcases List.mem_append.mp hx with hx | hx
            · exact List.mem_append_left _ ((h2 x).mpr hx)
            · exact List.mem_append_right _ hx
      have h3' : ((bumpCount acc b).map Prod.fst).Nodup := by
        rw [hkeys]
        by_cases hm : b ∈ acc.map Prod.fst
        · rwa [if_pos hm]
        · rw [if_neg hm]
          exact List.Nodup.append h3 (List.nodup_singleton b)
            (by simpa [List.disjoint_singleton] using hm)
      have := ih (bumpCount acc b) (p ++ [b]) h1' h2' h3'
      simpa [List.append_assoc] using this

theorem pyMaxByCount_spec (l : List (Nat × Nat)) :
    ∀ x : Nat × Nat, pyMaxByCount x l ∈ x :: l
      ∧ ∀ y ∈ x :: l, y.2 ≤ (pyMaxByCount x l).2 := by
  induction l with
  | nil => intro x; simp [pyMaxByCount]
  | cons z t ih =>
      intro x
      by_cases hz : z.2 > x.2
      · have hstep : pyMaxByCount x (z :: t) = pyMaxByCount z t := by
          simp [pyMaxByCount, hz]
        obtain ⟨hmem, hle⟩ := ih z
        refine ⟨?_, ?_⟩
        · rw [hstep]
          rcases List.mem_cons.mp hmem with h | h
          · rw [h]
            exact List.mem_cons_of_mem _ (List.mem_cons_self _ _)
          · exact List.mem_cons_of_mem _ (List.mem_cons_of_mem _ h)
        · intro y hy
          rw [hstep]
          rcases List.mem_cons.mp hy with h | h
          · subst h
            have hzle := hle z (List.mem_cons_self _ _)
            omega
          · exact hle y h
      · have hstep : pyMaxByCount x (z :: t) = pyMaxByCount x t := by
          simp [pyMaxByCount, hz]
        obtain ⟨hmem, hle⟩ := ih x
        refine ⟨?_, ?_⟩
        · rw [hstep]
          rcases List.mem_cons.mp hmem with h | h
          · rw [h]
            exact List.mem_cons_self _ _
          · exact List.mem_cons_of_mem _ (List.mem_cons_of_mem _ h)
        · intro y hy
          rw [hstep]
          rcases List.mem_cons.mp hy with h | h
          · subst h
            exact hle y (List.mem_cons_self _ _)
          · rcases List.mem_cons.mp h with h1 | h1
            · subst h1
              have hxle := hle x (List.mem_cons_self _ _)
              omega
            · exact hle y (List.mem_cons_of_mem _ h1)

theorem byteCounts_spec (data : Bytes) :
    (∀ kv ∈ (data.take 1000).foldl bumpCount [],
        kv.2 = (data.take 1000).count kv.1)
    ∧ (∀ b, b ∈ ((data.take 1000).foldl bumpCount []).map Prod.fst
        ↔ b ∈ data.take 1000)
    ∧ (((data.take 1000).foldl bumpCount []).map Prod.fst).Nodup := by
  have h := foldl_bumpCount_spec (data.take 1000) [] []
    (by simp) (by simp) (by simp)
  simpa using h

/-- The dictionary has one entry per distinct byte value of the prefix. -/
theorem byteCounts_length (data : Bytes) :
    ((data.take 1000).foldl bumpCount []).length
      = (data.take 1000).toFinset.card := by
  obtain ⟨h1, h2, h3⟩ := byteCounts_spec data
  have hlen : ((data.take 1000).foldl bumpCount []).length
      = (((data.take 1000).foldl bumpCount []).map Prod.fst).length :=
    (List.length_map _ _).symm
  rw [hlen, ← List.toFinset_card_of_nodup h3]
  congr 1
  ext x
  simp only [List.mem_toFinset]
  exact h2 x

/-! ## Path derivation helper lemmas -/

theorem basename_no_slash (s : Str) : '/' ∉ basename s := by
  suffices h : ∀ (t acc : Str), '/' ∉ acc →
      '/' ∉ t.foldl (fun acc c => if c = '/' then [] else acc ++ [c]) acc by
    exact h s [] (by simp)
  intro t
  induction t with
  | nil =>
      intro acc h
      simpa using h
  | cons c rest ih =>
      intro acc h
      simp only [List.foldl_cons]
      by_cases hc : c = '/'
      · exact ih _ (by simp [hc])
      · refine ih _ ?_
        rw [if_neg hc]
        intro hmem
        rcases List.mem_append.mp hmem with hh | hh
        · exact h hh
        · exact hc (List.mem_singleton.mp hh).symm

theorem basename_head (s : Str) : (basename s).head? ≠ some '/' := by
  intro h
  cases hb : basename s with
  | nil => rw [hb] at h; simp at h
  | cons c t =>
      rw [hb] at h
      simp only [List.head?_cons, Option.some.injEq] at h
      exact basename_no_slash s (by rw [hb, h]; exact List.mem_cons_self _ _)

theorem replaceFirst_front (p s : Str) (h : p.isPrefixOf s) :
    replaceFirst p s = s.drop p.length := by
  cases s with
  | nil =>
      cases p with
      | nil => rfl
      | cons c t => simp [List.isPrefixOf] at h
  | cons c t =>
      unfold replaceFirst
      rw [if_pos h]

theorem posixJoin_std (a b : Str) (ha : a ≠ []) (ha2 : a.getLast? ≠ some '/')
    (hb : b.head? ≠ some '/') : posixJoin a b = a ++ '/' :: b := by
  unfold posixJoin
  rw [if_neg hb, if_neg (by push_neg; exact ⟨ha, ha2⟩)]
  simp

/-- The selected most-common byte is a member of the sampled prefix and
realises the maximal multiplicity there. -/
theorem mostCommon_spec (data : Bytes) (hne : data ≠ []) :
    (match (data.take 1000).foldl bumpCount [] with
      | [] => 0
      | x :: rest => (pyMaxByCount x rest).1) ∈ data.take 1000
    ∧ ∀ b ∈ data.take 1000,
        (data.take 1000).count b ≤ (data.take 1000).count
          (match (data.take 1000).foldl bumpCount [] with
            | [] => 0
            | x :: rest => (pyMaxByCount x rest).1) := by
  obtain ⟨h1, h2, h3⟩ := byteCounts_spec data
  have hpre : data.take 1000 ≠ [] := by
    rw [Ne, List.take_eq_nil_iff]
    push_neg
    exact ⟨by norm_num, hne⟩
  obtain ⟨b0, hb0⟩ := List.exists_mem_of_ne_nil _ hpre
  have hb0k := (h2 b0).mpr hb0
  cases hcounts : (data.take 1000).foldl bumpCount [] with
  | nil =>
      rw [hcounts] at hb0k
      simp at hb0k
  | cons x rest =>
      rw [hcounts] at h1 h2
      obtain ⟨hmem, hle⟩ := pyMaxByCount_spec rest x
      have hres2 : (pyMaxByCount x rest).2
          = (data.take 1000).count (pyMaxByCount x rest).1 := h1 _ hmem
      have hres1 : (pyMaxByCount x rest).1 ∈ data.take 1000 :=
        (h2 _).mp (List.mem_map_of_mem Prod.fst hmem)
      refine ⟨hres1, ?_⟩
      intro b hb
      obtain ⟨kv, hkv, hkv1⟩ := List.mem_map.mp ((h2 b).mpr hb)
      calc (data.take 1000).count b = kv.2 := by rw [h1 kv hkv, hkv1]
        _ ≤ (pyMaxByCount x rest).2 := hle kv hkv
        _ = (data.take 1000).count (pyMaxByCount x rest).1 := hres2

/-! ## Claim C1: identifiers of first publish and idempotent replay -/

/-- Claim C1 (idempotency of the returned identifier), counterexample: on
the concrete first publish of `models/a.bin` the call returns the fresh
random version-4 identifier, the replay returns the path-derived
version-5 identifier, and the two identifiers are different strings. -/
theorem C1_counterexample :
    (write_to_efs_atomic okEnv emptyFS [1] "models/a.bin".toList).1
      = .ok (uuidStr (uuid4int 0)) "/mnt/efs/models/a.bin".toList
    ∧ (write_to_efs_atomic okEnv
        (write_to_efs_atomic okEnv emptyFS [1] "models/a.bin".toList).2
        [1] "models/a.bin".toList).1
      = .ok (uuidStr (uuid5int "/mnt/efs/models/a.bin".toList))
          "/mnt/efs/models/a.bin".toList
    ∧ uuidStr (uuid4int 0) ≠ uuidStr (uuid5int "/mnt/efs/models/a.bin".toList) :=
  ⟨rfl, rfl, by decide⟩

/-- Claim C1, amended: a first-time publish returns a fresh version-4
identifier; every replay returns the deterministic version-5 identifier
derived from the final path, leaves the namespace untouched, and this
replay identifier always differs from the first identifier (the version
nibbles differ). -/
theorem C1_amended (env env2 : ProdEnv) (fs : FS) (data data2 : Bytes) (key : Str)
    (habs : fs (finalPath env.mountPath key) = none)
    (hmnt : env2.mountPath = env.mountPath)
    (hok : env.faults = faultsOk) :
    (write_to_efs_atomic env fs data key).1
      = .ok (uuidStr (uuid4int env.entropy)) (finalPath env.mountPath key)
    ∧ (write_to_efs_atomic env2 (write_to_efs_atomic env fs data key).2 data2 key).1
      = .ok (uuidStr (uuid5int (finalPath env.mountPath key)))
          (finalPath env.mountPath key)
    ∧ (write_to_efs_atomic env2 (write_to_efs_atomic env fs data key).2 data2 key).2
      = (write_to_efs_atomic env fs data key).2
    ∧ uuidStr (uuid4int env.entropy)
        ≠ uuidStr (uuid5int (finalPath env.mountPath key)) := by
  have e1 : write_to_efs_atomic env fs data key
      = (.ok (uuidStr (uuid4int env.entropy)) (finalPath env.mountPath key),
         fsSet (fsSet (fsSet fs (tempPath env key) (some data))
           (tempPath env key) none)
           (finalPath env.mountPath key) (some data)) := by
    simp only [write_to_efs_atomic, habs, hok, faultsOk, if_true]
  have hfs : (write_to_efs_atomic env fs data key).2
      (finalPath env.mountPath key) = some data := by
    rw [e1]
    simp [fsSet]
  have e2 : write_to_efs_atomic env2 (write_to_efs_atomic env fs data key).2 data2 key
      = (.ok (uuidStr (uuid5int (finalPath env.mountPath key)))
            (finalPath env.mountPath key),
         (write_to_efs_atomic env fs data key).2) := by
    conv_lhs => rw [write_to_efs_atomic]
    rw [hmnt, hfs]
  exact ⟨by rw [e1], by rw [e2], by rw [e2], uuid4_ne_uuid5 _ _⟩

/-- Witness for C1_amended at a concrete publish-then-replay. -/
theorem C1_amended_witness :
    (write_to_efs_atomic okEnv emptyFS [1] "models/w.bin".toList).1
      = .ok (uuidStr (uuid4int okEnv.entropy))
          (finalPath okEnv.mountPath "models/w.bin".toList)
    ∧ (write_to_efs_atomic okEnv
        (write_to_efs_atomic okEnv emptyFS [1] "models/w.bin".toList).2
        [2] "models/w.bin".toList).1
      = .ok (uuidStr (uuid5int (finalPath okEnv.mountPath "models/w.bin".toList)))
          (finalPath okEnv.mountPath "models/w.bin".toList)
    ∧ (write_to_efs_atomic okEnv
        (write_to_efs_atomic okEnv emptyFS [1] "models/w.bin".toList).2
        [2] "models/w.bin".toList).2
      = (write_to_efs_atomic okEnv emptyFS [1] "models/w.bin".toList).2
    ∧ uuidStr (uuid4int okEnv.entropy)
        ≠ uuidStr (uuid5int (finalPath okEnv.mountPath "models/w.bin".toList)) :=
  C1_amended okEnv okEnv emptyFS [1] [2] "models/w.bin".toList rfl rfl rfl

/-! ## Claim C6: publishing onto an existing target is a pure no-op -/

/-- Claim C6: when the resolved target path already exists, the call
returns success with the path-derived identifier and the file system is
returned unchanged: no temporary file is created and the stored bytes are
untouched. -/
theorem C6_existing_target_noop (env : ProdEnv) (fs : FS) (data bs : Bytes)
    (key : Str) (hEx : fs (finalPath env.mountPath key) = some bs) :
    write_to_efs_atomic env fs data key
      = (.ok (uuidStr (uuid5int (finalPath env.mountPath key)))
          (finalPath env.mountPath key), fs) := by
  conv_lhs => rw [write_to_efs_atomic]
  rw [hEx]

/-- Witness for C6 on a concrete one-file namespace. -/
theorem C6_witness :
    write_to_efs_atomic okEnv
      (fsSet emptyFS "/mnt/efs/models/a".toList (some [9])) [1] "models/a".toList
      = (.ok (uuidStr (uuid5int (finalPath okEnv.mountPath "models/a".toList)))
          (finalPath okEnv.mountPath "models/a".toList),
         fsSet emptyFS "/mnt/efs/models/a".toList (some [9])) :=
  C6_existing_target_noop okEnv _ [1] [9] "models/a".toList (by decide)

/-! ## Claim C7: the path derivation formula -/

/-- Claim C7, counterexample: for the key `models//etc/passwd` the
remainder after the category part is absolute, so `os.path.join` discards
the mount root and the derived path is `/etc/passwd`, not
`<root>/models/<remainder>`. -/
theorem C7_counterexample :
    finalPath "/mnt/efs".toList "models//etc/passwd".toList
        ≠ "/mnt/efs/models//etc/passwd".toList
    ∧ finalPath "/mnt/efs".toList "models//etc/passwd".toList
        = "/etc/passwd".toList := by
  decide

/-- Claim C7, amended: for a mount root that is nonempty and does not end
in a slash, and provided the remainder left after the recognised category
part does not itself start with a slash, the derivation is exactly the
claimed pure function of root and key: `models/` keys keep their
remainder under `<root>/models/`, `inputs/` keys under `<root>/inputs/`,
and all other keys map to `<root>/models/<basename key>`. -/
theorem C7_amended (root key : Str) (h1 : root ≠ [])
    (h2 : root.getLast? ≠ some '/') :
    (("models/".toList).isPrefixOf key = true →
        (key.drop 7).head? ≠ some '/' →
        finalPath root key = root ++ "/models/".toList ++ key.drop 7)
    ∧ (("models/".toList).isPrefixOf key = false →
        ("inputs/".toList).isPrefixOf key = true →
        (key.drop 7).head? ≠ some '/' →
        finalPath root key = root ++ "/inputs/".toList ++ key.drop 7)
    ∧ (("models/".toList).isPrefixOf key = false →
        ("inputs/".toList).isPrefixOf key = false →
        finalPath root key = root ++ "/models/".toList ++ basename key) := by
  have hmj : posixJoin root "models".toList = root ++ '/' :: "models".toList :=
    posixJoin_std _ _ h1 h2 (by decide)
  have hij : posixJoin root "inputs".toList = root ++ '/' :: "inputs".toList :=
    posixJoin_std _ _ h1 h2 (by decide)
  have hmlast : (root ++ '/' :: "models".toList).getLast? ≠ some '/' := by
    rw [List.getLast?_append,
      show ('/' :: "models".toList).getLast? = some 's' from rfl]
    simp
  have hilast : (root ++ '/' :: "inputs".toList).getLast? ≠ some '/' := by
    rw [List.getLast?_append,
      show ('/' :: "inputs".toList).getLast? = some 's' from rfl]
    simp
  refine ⟨?_, ?_, ?_⟩
  · intro hm hd
    unfold finalPath efsTargetDir efsFilename
    rw [hm]
    simp only [if_true]
    rw [replaceFirst_front _ _ hm,
      show ("models/".toList).length = 7 from rfl, hmj,
      posixJoin_std _ _ (by simp) hmlast hd, List.append_assoc,
      List.append_assoc]
    rfl
  · intro hm hi hd
    unfold finalPath efsTargetDir efsFilename
    rw [hm, hi]
    simp only [if_true, if_false, Bool.false_eq_true]
    rw [replaceFirst_front _ _ hi,
      show ("inputs/".toList).length = 7 from rfl, hij,
      posixJoin_std _ _ (by simp) hilast hd, List.append_assoc,
      List.append_assoc]
    rfl
  · intro hm hi
    unfold finalPath efsTargetDir efsFilename
    rw [hm, hi]
    simp only [if_false, Bool.false_eq_true]
    rw [hmj, posixJoin_std _ _ (by simp) hmlast (basename_head key),
      List.append_assoc, List.append_assoc]
    rfl

/-- Witness for C7_amended on the three kinds of keys. -/
theorem C7_witness :
    finalPath "/mnt/efs".toList "models/w.bin".toList
        = "/mnt/efs".toList ++ "/models/".toList
            ++ ("models/w.bin".toList).drop 7
    ∧ finalPath "/mnt/efs".toList "inputs/x".toList
        = "/mnt/efs".toList ++ "/inputs/".toList ++ ("inputs/x".toList).drop 7
    ∧ finalPath "/mnt/efs".toList "some/dir/plain.bin".toList
        = "/mnt/efs".toList ++ "/models/".toList
            ++ basename "some/dir/plain.bin".toList := by
  refine ⟨?_, ?_, ?_⟩
  · exact (C7_amended "/mnt/efs".toList "models/w.bin".toList (by decide)
      (by decide)).1 (by decide) (by decide)
  · exact (C7_amended "/mnt/efs".toList "inputs/x".toList (by decide)
      (by decide)).2.1 (by decide) (by decide) (by decide)
  · exact (C7_amended "/mnt/efs".toList "some/dir/plain.bin".toList (by decide)
      (by decide)).2.2 (by decide) (by decide)

/-! ## Claim C8: failed first-time publish leaves the target unchanged -/

theorem cleanupTemp_fsSet (env : ProdEnv) (fs : FS) (tp : Str) (v : Option Bytes) :
    cleanupTemp env (fsSet fs tp v) tp
      = if v.isSome && env.faults.removeOk then fsSet (fsSet fs tp v) tp none
        else fsSet fs tp v := by
  unfold cleanupTemp
  rw [show (fsSet fs tp v) tp = v from by simp [fsSet]]
  cases v with
  | none => simp
  | some l =>
      cases hrm : env.faults.removeOk
      · simp [hrm]
      · simp [hrm]

/-- Claim C8: on a first-time publish where the temporary write or the
rename fails, the write primitive raises (mapped to `500 INTERNAL_ERROR`
by the handler), the target path still holds nothing, and when the
best-effort `os.remove` succeeds the temporary file is gone.  The
freshness hypothesis `hfresh` records that the randomly named temporary
file is distinct from the target (spec section 5: temporary-name
collisions cannot occur). -/
theorem C8_failed_publish (env : ProdEnv) (fs : FS) (data : Bytes) (key : Str)
    (habs : fs (finalPath env.mountPath key) = none)
    (hfail : env.faults.tempWrite ≠ .ok ∨ env.faults.renameOk = false)
    (hfresh : tempPath env key ≠ finalPath env.mountPath key)
    (hsize : ¬ data.length > maxFileSize) :
    (write_to_efs_atomic env fs data key).1 = .exn
    ∧ (write_to_efs_atomic env fs data key).2 (finalPath env.mountPath key) = none
    ∧ (env.faults.removeOk = true →
        (write_to_efs_atomic env fs data key).2 (tempPath env key) = none)
    ∧ handle_api_event_data env fs data key
        = (.error 500 "INTERNAL_ERROR".toList, (write_to_efs_atomic env fs data key).2) := by
  have hne : finalPath env.mountPath key ≠ tempPath env key := hfresh.symm
  have hhandler : (write_to_efs_atomic env fs data key).1 = .exn →
      handle_api_event_data env fs data key
        = (.error 500 "INTERNAL_ERROR".toList, (write_to_efs_atomic env fs data key).2) := by
    intro hexn
    unfold handle_api_event_data
    rw [if_neg hsize]
    cases hw : write_to_efs_atomic env fs data key with
    | mk r fs1 =>
        cases r with
        | ok fid p => rw [hw] at hexn; simp at hexn
        | exn => rfl
  cases htw : env.faults.tempWrite with
  | ok =>
      have hren : env.faults.renameOk = false := by
        rcases hfail with h | h
        · exact absurd htw h
        · exact h
      have e : write_to_efs_atomic env fs data key
          = (.exn, cleanupTemp env (fsSet fs (tempPath env key) (some data))
              (tempPath env key)) := by
        simp only [write_to_efs_atomic, habs, htw, hren, Bool.false_eq_true, if_false]
      refine ⟨by rw [e], ?_, ?_, hhandler (by rw [e])⟩
      · rw [e]
        simp only [cleanupTemp_fsSet]
        cases hrm : env.faults.removeOk
        · simp [hrm, fsSet, hne, habs]
        · simp [hrm, fsSet, hne, habs]
      · intro hrm
        rw [e]
        simp only [cleanupTemp_fsSet]
        simp [hrm, fsSet]
  | err leftover =>
      have e : write_to_efs_atomic env fs data key
          = (.exn, cleanupTemp env (fsSet fs (tempPath env key) leftover)
              (tempPath env key)) := by
        simp only [write_to_efs_atomic, habs, htw]
      refine ⟨by rw [e], ?_, ?_, hhandler (by rw [e])⟩
      · rw [e]
        simp only [cleanupTemp_fsSet]
        cases hv : leftover.isSome <;> cases hrm : env.faults.removeOk
        all_goals simp [hv, hrm, fsSet, hne, habs]
      · intro hrm
        rw [e]
        simp only [cleanupTemp_fsSet]
        cases leftover with
        | none => simp [hrm, fsSet]
        | some l => simp [hrm, fsSet]

/-- Witness for C8: a concrete first-time publish whose rename fails. -/
theorem C8_witness :
    (write_to_efs_atomic ⟨"/mnt/efs".toList, 0, ⟨.ok, false, true⟩⟩
        emptyFS [1] "models/a".toList).1 = .exn
    ∧ (write_to_efs_atomic ⟨"/mnt/efs".toList, 0, ⟨.ok, false, true⟩⟩
        emptyFS [1] "models/a".toList).2
        (finalPath "/mnt/efs".toList "models/a".toList) = none
    ∧ ((⟨"/mnt/efs".toList, 0, ⟨.ok, false, true⟩⟩ : ProdEnv).faults.removeOk = true →
        (write_to_efs_atomic ⟨"/mnt/efs".toList, 0, ⟨.ok, false, true⟩⟩
          emptyFS [1] "models/a".toList).2
          (tempPath ⟨"/mnt/efs".toList, 0, ⟨.ok, false, true⟩⟩ "models/a".toList) = none)
    ∧ handle_api_event_data ⟨"/mnt/efs".toList, 0, ⟨.ok, false, true⟩⟩
        emptyFS [1] "models/a".toList
      = (.error 500 "INTERNAL_ERROR".toList,
         (write_to_efs_atomic ⟨"/mnt/efs".toList, 0, ⟨.ok, false, true⟩⟩
           emptyFS [1] "models/a".toList).2) :=
  C8_failed_publish ⟨"/mnt/efs".toList, 0, ⟨.ok, false, true⟩⟩ emptyFS [1]
    "models/a".toList rfl (.inr rfl) (by decide) (by decide)

/-! ## Claim C4: oversize rejection -/

/-- Claim C4, amended: the inline-data API branch and the S3-notification
branch reject an oversized payload with `413 FILE_TOO_LARGE` before any
namespace write (the file system is returned untouched); the fetch-by-key
API branch, by contrast, performs no size check (see the counterexample). -/
theorem C4_amended (env : ProdEnv) (fs : FS) (data : Bytes) (filename key : Str)
    (size : Nat) (obj : Option Bytes) :
    (data.length > maxFileSize →
      handle_api_event_data env fs data filename
        = (.error 413 "FILE_TOO_LARGE".toList, fs))
    ∧ (size > maxFileSize →
      handle_s3_event env fs key size obj
        = (.error 413 "FILE_TOO_LARGE".toList, fs)) := by
  constructor
  · intro h
    unfold handle_api_event_data
    rw [if_pos h]
  · intro h
    unfold handle_s3_event
    rw [if_pos h]

/-- A payload one byte above the maximum. -/
def bigBytes : Bytes := List.replicate (maxFileSize + 1) 0

/-- Witness for C4_amended at an oversized payload and record size. -/
theorem C4_witness :
    handle_api_event_data okEnv emptyFS bigBytes "data.bin".toList
      = (.error 413 "FILE_TOO_LARGE".toList, emptyFS)
    ∧ handle_s3_event okEnv emptyFS "k".toList (maxFileSize + 1) none
      = (.error 413 "FILE_TOO_LARGE".toList, emptyFS) := by
  have h := C4_amended okEnv emptyFS bigBytes "data.bin".toList "k".toList
    (maxFileSize + 1) none
  exact ⟨h.1 (by simp [bigBytes]), h.2 (Nat.lt_succ_self maxFileSize)⟩

/-- Claim C4, counterexample: an ingestion request through the fetch-by-key
API branch whose fetched object is one byte above the maximum is written
to the namespace and answered with success, not with `413`. -/
theorem C4_counterexample :
    (handle_api_event_key okEnv emptyFS "models/big.bin".toList
        (some "bucket".toList) (some bigBytes)).1
      = .success (uuidStr (uuid4int 0)) "/mnt/efs/models/big.bin".toList
          "models/big.bin".toList bigBytes.length
    ∧ bigBytes.length > maxFileSize
    ∧ (handle_api_event_key okEnv emptyFS "models/big.bin".toList
        (some "bucket".toList) (some bigBytes)).2
        "/mnt/efs/models/big.bin".toList = some bigBytes := by
  refine ⟨rfl, by simp [bigBytes], rfl⟩

/-! ## Consumer claims -/

/-- Shared helper: with valid fields and no file at the resolved model
path, the consumer answers the prebuilt 404 and leaves the namespace
untouched. -/
theorem consumer_not_found_eq (env : ConsEnv) (fs : FS) (fid mdl : Str)
    (h1 : fid ≠ []) (h3 : mdl ≠ [])
    (habs : fs (modelPath env.mountPath mdl) = none) :
    consumer_handler env fs ⟨some fid, some mdl⟩
      = (.error 404 "NOT_FOUND".toList (some fid)
          (some (modelPath env.mountPath mdl)), fs) := by
  have hf1 : falsyOpt (some fid) = false := by
    simp [falsyOpt, List.isEmpty_eq_false, h1]
  have hf3 : falsyOpt (some mdl) = false := by
    simp [falsyOpt, List.isEmpty_eq_false, h3]
  simp only [consumer_handler, hf1, hf3, Bool.false_eq_true, if_false,
    Option.getD_some, habs]

/-- Claim C5: a processing request for a key with no published artifact
at the resolved path deterministically yields `404 NOT_FOUND` carrying the
`fileId` and the attempted path — never a 500 — and, the handler being a
pure function of request and namespace state that returns the namespace
unchanged, the outcome repeats on every such call until a publish lands. -/
theorem C5_not_found (env : ConsEnv) (fs : FS) (fid mdl : Str)
    (h1 : fid ≠ []) (h3 : mdl ≠ [])
    (habs : fs (modelPath env.mountPath mdl) = none) :
    consumer_handler env fs ⟨some fid, some mdl⟩
      = (.error 404 "NOT_FOUND".toList (some fid)
          (some (modelPath env.mountPath mdl)), fs) :=
  consumer_not_found_eq env fs fid mdl h1 h3 habs

/-- Witness for C5 on the empty namespace. -/
theorem C5_witness :
    consumer_handler consOkEnv emptyFS ⟨some "f".toList, some "m".toList⟩
      = (.error 404 "NOT_FOUND".toList (some "f".toList)
          (some (modelPath "/mnt/efs".toList "m".toList)), emptyFS) :=
  C5_not_found consOkEnv emptyFS "f".toList "m".toList (by decide) (by decide) rfl

/-- Claim C2, counterexample: with only `/mnt/efs/models/a` published, two
requests sharing the logical key `k` but carrying different model labels
do not read the same file: the `a` request succeeds, the `b` request is a
404 on the path derived from the model label. -/
theorem C2_counterexample :
    (consumer_handler consOkEnv
        (fsSet emptyFS "/mnt/efs/models/a".toList (some [1]))
        ⟨some "k".toList, some "a".toList⟩).1.status = 200
    ∧ (consumer_handler consOkEnv
        (fsSet emptyFS "/mnt/efs/models/a".toList (some [1]))
        ⟨some "k".toList, some "b".toList⟩).1
      = .error 404 "NOT_FOUND".toList (some "k".toList)
          (some "/mnt/efs/models/b".toList) := by
  refine ⟨by decide, by decide⟩

/-- Claim C2, amended: the namespace read path is resolved from the
transform/model label of the request by joining `<mount>/models/<model>` — it
is the `fileId` that is metadata for the lookup.  Two requests with the
same model label and different `fileId` values behave alike (equal status
codes), and the 404 path depends only on the model label. -/
theorem C2_amended (env : ConsEnv) (fs : FS) (fid fid2 mdl : Str)
    (h1 : fid ≠ []) (h2 : fid2 ≠ []) (h3 : mdl ≠ []) :
    ((consumer_handler env fs ⟨some fid, some mdl⟩).1).status
      = ((consumer_handler env fs ⟨some fid2, some mdl⟩).1).status
    ∧ (fs (modelPath env.mountPath mdl) = none →
        (consumer_handler env fs ⟨some fid, some mdl⟩).1
          = .error 404 "NOT_FOUND".toList (some fid)
              (some (modelPath env.mountPath mdl))) := by
  have hf1 : falsyOpt (some fid) = false := by
    simp [falsyOpt, List.isEmpty_eq_false, h1]
  have hf2 : falsyOpt (some fid2) = false := by
    simp [falsyOpt, List.isEmpty_eq_false, h2]
  have hf3 : falsyOpt (some mdl) = false := by
    simp [falsyOpt, List.isEmpty_eq_false, h3]
  constructor
  · simp only [consumer_handler, hf1, hf2, hf3, Bool.false_eq_true, if_false,
      Option.getD_some]
    cases hm : fs (modelPath env.mountPath mdl) with
    | none => rfl
    | some d =>
        cases hro : env.readOk
        · rfl
        · cases hwo : env.writeResultOk
          · simp [hwo]
          · simp [hwo, mkSuccess, ConsResp.status]
  · intro habs
    rw [consumer_not_found_eq env fs fid mdl h1 h3 habs]

/-- Witness for C2_amended. -/
theorem C2_witness :
    ((consumer_handler consOkEnv emptyFS
        ⟨some "k".toList, some "a".toList⟩).1).status
      = ((consumer_handler consOkEnv emptyFS
          ⟨some "q".toList, some "a".toList⟩).1).status
    ∧ (consumer_handler consOkEnv emptyFS
        ⟨some "k".toList, some "a".toList⟩).1
      = .error 404 "NOT_FOUND".toList (some "k".toList)
          (some (modelPath "/mnt/efs".toList "a".toList)) := by
  have h := C2_amended consOkEnv emptyFS "k".toList "q".toList "a".toList
    (by decide) (by decide) (by decide)
  exact ⟨h.1, h.2 rfl⟩

/-- Claim C3: the Result Record is a fixed function of the artifact bytes:
`fileSize` is the byte count, `checksum` the SHA-256 hex digest of the
whole content, `uniqueBytes` the number of distinct byte values in the
first 1000 bytes, `mostCommonByte` a most frequent byte of that prefix,
and reprocessing identical bytes reproduces `checksum`, `uniqueBytes` and
`mostCommonByte` (the timing field excluded). -/
theorem C3_result_record (data : Bytes) (fid fid2 : Str) (t t2 : Nat) :
    (process_inference t data fid).fileSize = data.length
    ∧ (process_inference t data fid).checksum = sha256hex data
    ∧ (process_inference t data fid).uniqueBytes = (data.take 1000).toFinset.card
    ∧ (data ≠ [] →
        (process_inference t data fid).mostCommonByte ∈ data.take 1000
        ∧ ∀ b ∈ data.take 1000,
            (data.take 1000).count b
              ≤ (data.take 1000).count (process_inference t data fid).mostCommonByte)
    ∧ (process_inference t2 data fid2).checksum
        = (process_inference t data fid).checksum
    ∧ (process_inference t2 data fid2).uniqueBytes
        = (process_inference t data fid).uniqueBytes
    ∧ (process_inference t2 data fid2).mostCommonByte
        = (process_inference t data fid).mostCommonByte := by
  refine ⟨rfl, rfl, ?_, ?_, rfl, rfl, rfl⟩
  · exact byteCounts_length data
  · intro hne
    exact mostCommon_spec data hne

/-- Witness for C3_result_record at the bytes `[7, 7, 3]`. -/
theorem C3_witness :
    (process_inference 0 [7, 7, 3] []).mostCommonByte ∈ ([7, 7, 3] : Bytes).take 1000
    ∧ ∀ b ∈ ([7, 7, 3] : Bytes).take 1000,
        (([7, 7, 3] : Bytes).take 1000).count b
          ≤ (([7, 7, 3] : Bytes).take 1000).count
              (process_inference 0 [7, 7, 3] []).mostCommonByte :=
  (C3_result_record [7, 7, 3] [] ['x'] 0 1).2.2.2.1 (by decide)

/-- Claim C9: with archiving enabled, a failing archive upload does not
fail the request: the response is the same 200 success with the full
result and the identical namespace write, with only the `s3Key` field
omitted relative to a run whose archive upload succeeds. -/
theorem C9_archive_best_effort (mount bucket : Str) (fs : FS) (fid mdl : Str)
    (data : Bytes) (leftover : Option Bytes) (t1 t2 : Nat)
    (h1 : fid ≠ []) (h3 : mdl ≠ []) (hb : bucket ≠ [])
    (hfile : fs (modelPath mount mdl) = some data) :
    consumer_handler ⟨mount, some bucket, true, true, true, leftover, false, t1, t2⟩
        fs ⟨some fid, some mdl⟩
      = (.success fid (outputPath mount fid) t2 (process_inference t1 data fid) none,
         fsSet fs (outputPath mount fid)
           (some (utf8 (resultJson (process_inference t1 data fid)))))
    ∧ consumer_handler ⟨mount, some bucket, true, true, true, leftover, true, t1, t2⟩
        fs ⟨some fid, some mdl⟩
      = (.success fid (outputPath mount fid) t2 (process_inference t1 data fid)
           (some ("outputs/".toList ++ fid ++ ".result".toList)),
         fsSet fs (outputPath mount fid)
           (some (utf8 (resultJson (process_inference t1 data fid))))) := by
  have hf1 : falsyOpt (some fid) = false := by
    simp [falsyOpt, List.isEmpty_eq_false, h1]
  have hf3 : falsyOpt (some mdl) = false := by
    simp [falsyOpt, List.isEmpty_eq_false, h3]
  have hfb : falsyOpt (some bucket) = false := by
    simp [falsyOpt, List.isEmpty_eq_false, hb]
  have hkey : ("outputs/".toList ++ fid ++ ".result".toList).isEmpty = false := by
    simp
  constructor
  · simp only [consumer_handler, hf1, hf3, hfb, Bool.false_eq_true, if_false,
      Option.getD_some, hfile, mkSuccess, archive_to_s3, Bool.not_false,
      Bool.and_true, if_true]
  · simp only [consumer_handler, hf1, hf3, hfb, Bool.false_eq_true, if_false,
      Option.getD_some, hfile, mkSuccess, archive_to_s3, Bool.not_false,
      Bool.and_true, if_true, hkey]

/-- Witness for C9 on a one-file namespace. -/
theorem C9_witness :
    consumer_handler
        ⟨"/mnt/efs".toList, some "b".toList, true, true, true, none, false, 0, 0⟩
        (fsSet emptyFS "/mnt/efs/models/m".toList (some [5]))
        ⟨some "f".toList, some "m".toList⟩
      = (.success "f".toList (outputPath "/mnt/efs".toList "f".toList) 0
           (process_inference 0 [5] "f".toList) none,
         fsSet (fsSet emptyFS "/mnt/efs/models/m".toList (some [5]))
           (outputPath "/mnt/efs".toList "f".toList)
           (some (utf8 (resultJson (process_inference 0 [5] "f".toList)))))
    ∧ consumer_handler
        ⟨"/mnt/efs".toList, some "b".toList, true, true, true, none, true, 0, 0⟩
        (fsSet emptyFS "/mnt/efs/models/m".toList (some [5]))
        ⟨some "f".toList, some "m".toList⟩
      = (.success "f".toList (outputPath "/mnt/efs".toList "f".toList) 0
           (process_inference 0 [5] "f".toList)
           (some ("outputs/".toList ++ "f".toList ++ ".result".toList)),
         fsSet (fsSet emptyFS "/mnt/efs/models/m".toList (some [5]))
           (outputPath "/mnt/efs".toList "f".toList)
           (some (utf8 (resultJson (process_inference 0 [5] "f".toList))))) :=
  C9_archive_best_effort "/mnt/efs".toList "b".toList
    (fsSet emptyFS "/mnt/efs/models/m".toList (some [5])) "f".toList "m".toList
    [5] none 0 0 (by decide) (by decide) (by decide) (by decide)

/-- Claim C10: processing a published zero-byte artifact succeeds with
status `success`: `fileSize = 0`, `checksum` is the SHA-256 digest of the
empty byte string, `uniqueBytes = 0` and `mostCommonByte = 0` (the
defaulted value for the empty prefix). -/
theorem C10_zero_byte_artifact :
    (consumer_handler consOkEnv
        (fsSet emptyFS "/mnt/efs/models/m".toList (some []))
        ⟨some "f".toList, some "m".toList⟩).1
      = .success "f".toList (outputPath "/mnt/efs".toList "f".toList) 0
          (process_inference 0 [] "f".toList) none
    ∧ process_inference 0 [] "f".toList
      = ⟨"f".toList, 0,
         "e3b0c44298fc1c149afbf4c8996fb92427ae41e4649b934ca495991b7852b855".toList,
         0, 0, 0, "success".toList⟩
    ∧ (process_inference 0 [] "f".toList).checksum = sha256hex [] := by
  refine ⟨by decide, by decide, rfl⟩

end LambdaSFS
